import Mathlib

/-!
# Verification of the punishment lifecycle of the moderation bot

A shallow embedding of the moderation cog (`cogs/moderation.py`) and its
database layer (`database.py`). Warnings and punishments tables are lists of
rows; the Discord surface (roles, bans, timeouts, guild/member resolvability)
and the asyncio timer set are explicit fields of a `BotState`. Each command
handler and scheduled task of the source is translated as a state-transition
function, and the claims of the spec are settled as theorems about them.

Times are integers (seconds); durations from `timedelta(hours=h)` are
`h * 3600` seconds. Actions are the strings "mute" / "ban" exactly as stored
in the `punishments.action` column.
-/

/-- A row of the `warnings` table (`database.py`, `create_tables`):
id (AUTO_INCREMENT), user_id, guild_id, moderator_id, reason, timestamp. -/
structure WarningRow where
  id : Nat
  user_id : Nat
  guild_id : Nat
  moderator_id : Nat
  reason : String
  timestamp : String
  deriving DecidableEq, Repr

/-- A row of the `punishments` table: user_id, guild_id, action ("mute" or
"ban" as TEXT), ends_at (NULL = permanent). -/
structure PunishmentRow where
  user_id : Nat
  guild_id : Nat
  action : String
  ends_at : Option Int
  deriving DecidableEq, Repr

/-- The durable store: both tables plus the AUTO_INCREMENT counter of
`warnings.id`. -/
structure DBState where
  warnings : List WarningRow
  punishments : List PunishmentRow
  nextId : Nat
  deriving DecidableEq, Repr

namespace DBState

/-- Embeds `Database.get_all_active_punishments`:
`SELECT user_id, guild_id, action, ends_at FROM punishments WHERE ends_at IS NOT NULL`. -/
def get_all_active_punishments (db : DBState) : List PunishmentRow :=
  db.punishments.filter (fun p => p.ends_at.isSome)

/-- Embeds `Database.delete_punishment`:
`DELETE FROM punishments WHERE user_id = %s AND guild_id = %s AND action = %s`. -/
def delete_punishment (db : DBState) (user_id guild_id : Nat) (action : String) : DBState :=
  let keep : PunishmentRow → Bool := fun p =>
    !(decide (p.user_id = user_id ∧ p.guild_id = guild_id ∧ p.action = action))
  { db with punishments := db.punishments.filter keep }

/-- Embeds `Database.add_warning`: `INSERT INTO warnings (user_id, guild_id,
moderator_id, reason, timestamp) VALUES (...)`; `id` is auto-incremented. -/
def add_warning (db : DBState) (user_id guild_id moderator_id : Nat)
    (reason timestamp : String) : DBState :=
  { db with
    warnings := db.warnings ++
      [⟨db.nextId, user_id, guild_id, moderator_id, reason, timestamp⟩]
    nextId := db.nextId + 1 }

/-- Row predicate of the `WHERE user_id = %s AND guild_id = %s` clauses. -/
def forPair (user_id guild_id : Nat) (w : WarningRow) : Bool :=
  decide (w.user_id = user_id ∧ w.guild_id = guild_id)

/-- Embeds `Database.get_warnings_count`:
`SELECT COUNT(*) FROM warnings WHERE user_id = %s AND guild_id = %s`. -/
def get_warnings_count (db : DBState) (user_id guild_id : Nat) : Nat :=
  (db.warnings.filter (forPair user_id guild_id)).length

/-- The `ORDER BY id DESC LIMIT 1` step over a list of rows: the largest id, if any. -/
def maxId : List WarningRow → Option Nat
  | [] => none
  | w :: ws =>
    match maxId ws with
    | none => some w.id
    | some m => some (max w.id m)

/-- Embeds `Database.get_one_user_warning`: `SELECT id FROM warnings WHERE user_id =
%s AND guild_id = %s ORDER BY id DESC LIMIT 1` (just the id it returns). -/
def get_one_user_warning (db : DBState) (user_id guild_id : Nat) : Option Nat :=
  maxId (db.warnings.filter (forPair user_id guild_id))

/-- Embeds `Database.delete_last_warning`: `DELETE FROM warnings WHERE id = %s`. -/
def delete_last_warning (db : DBState) (warning_id : Nat) : DBState :=
  { db with warnings := db.warnings.filter (fun w => !(decide (w.id = warning_id))) }

/-- Embeds `Database.delete_all_user_warnings`:
`DELETE FROM warnings WHERE user_id = %s AND guild_id = %s`. -/
def delete_all_user_warnings (db : DBState) (user_id guild_id : Nat) : DBState :=
  { db with warnings := db.warnings.filter (fun w => !(forPair user_id guild_id w)) }

end DBState

/-- The two flavours of asyncio task that can be pending a reversal:
`dbTask` is a `_delayed_unpunish` task (created by `cog_load`; deletes the
DB row when it completes), `inlineTask` is an `unmute_later` / `unban_later`
closure created inside `apply_punishment` (touches no DB row). -/
inductive TimerKind where
  | dbTask
  | inlineTask
  deriving DecidableEq, Repr

/-- A pending scheduled reversal: key (user, guild, action), remaining delay
in seconds, and which code path created it. -/
structure Timer where
  user_id : Nat
  guild_id : Nat
  action : String
  delay : Nat
  kind : TimerKind
  deriving DecidableEq, Repr

/-- The whole observable state: the durable store, the Discord surface
(resolvable guilds and members, the per-guild "Muted" role, role holders,
timeout suppressions, ban lists), the pending timers and the transcript of
messages sent. -/
structure BotState where
  db : DBState
  guilds : List Nat
  members : List (Nat × Nat)
  mutedRole : List Nat
  muted : List (Nat × Nat)
  timedOut : List (Nat × Nat)
  banned : List (Nat × Nat)
  timers : List Timer
  log : List String
  deriving DecidableEq, Repr

/-- Add a (user, guild) pair to a role/ban set; `add_roles` / `ban` are
idempotent on the holder set. -/
def insertPair (l : List (Nat × Nat)) (p : Nat × Nat) : List (Nat × Nat) :=
  if p ∈ l then l else p :: l

/-- Remove a (user, guild) pair from a role/ban/timeout set
(`remove_roles` / `unban` / `timeout(None)`). -/
def removePair (l : List (Nat × Nat)) (p : Nat × Nat) : List (Nat × Nat) :=
  l.filter (fun q => !(decide (q = p)))

/-- Embeds `ModeratingCog.PUNISHMENTS`: the warning-count → (action, duration)
dictionary; durations in seconds (`timedelta(hours=h)`), `none` = permanent. -/
def PUNISHMENTS (count : Nat) : Option (String × Option Nat) :=
  if count = 3 then some ("mute", some 3600)
  else if count = 4 then some ("mute", some 43200)
  else if count = 5 then some ("mute", some 86400)
  else if count = 6 then some ("mute", some 604800)
  else if count = 7 then some ("mute", some 2419200)
  else if count = 8 then some ("ban", none)
  else none

namespace BotState

/-- Embeds `ModeratingCog.apply_punishment(member, warnings_count, ctx)`: policy
lookup; mute path creates the "Muted" role if missing, clears a timeout if
the member already holds the role, adds the role, announces, and if the
duration is finite spawns an `unmute_later` task; ban path no-ops with a
notice if already banned, else bans, announces, and would spawn an
`unban_later` task for a finite duration. No database write anywhere. -/
def apply_punishment (s : BotState) (user guild : Nat) (warnings_count : Nat) : BotState :=
  match PUNISHMENTS warnings_count with
  | none => s
  | some (action, duration) =>
    if action = "mute" then
      let s1 := if guild ∈ s.mutedRole then s
                else { s with mutedRole := guild :: s.mutedRole }
      let s2 := if (user, guild) ∈ s1.muted then
                  { s1 with timedOut := removePair s1.timedOut (user, guild) }
                else s1
      let s3 := { s2 with muted := insertPair s2.muted (user, guild)
                          log := "muted" :: s2.log }
      match duration with
      | some d =>
        { s3 with timers := s3.timers ++ [⟨user, guild, "mute", d, .inlineTask⟩] }
      | none => s3
    else if action = "ban" then
      if (user, guild) ∈ s.banned then
        { s with log := "already_banned" :: s.log }
      else
        let s1 := { s with banned := insertPair s.banned (user, guild)
                           log := "banned" :: s.log }
        match duration with
        | some d =>
          { s1 with timers := s1.timers ++ [⟨user, guild, "ban", d, .inlineTask⟩] }
        | none => s1
    else s

/-- Embeds `ModeratingCog.adjust_punishment_after_change(member, warn_count, ctx)`:
if the count is below 3, remove the "Muted" role when the member holds it
(with an announcement) and clear any timeout; otherwise do nothing. -/
def adjust_punishment_after_change (s : BotState) (user guild : Nat)
    (warn_count : Nat) : BotState :=
  if warn_count < 3 then
    let s1 := if guild ∈ s.mutedRole ∧ (user, guild) ∈ s.muted then
                { s with muted := removePair s.muted (user, guild)
                         log := "unmuted_below_threshold" :: s.log }
              else s
    { s1 with timedOut := removePair s1.timedOut (user, guild) }
  else s

/-- Embeds `ModeratingCog.cmd_warn`: append a Warning row, recompute the count,
announce, DM the user and write the mod-log (both skipped together when the
DM raises Forbidden, modelled by `dm_ok`), then apply the policy punishment
if the new total is a listed threshold. -/
def cmd_warn (s : BotState) (user guild moderator : Nat)
    (reason timestamp : String) (dm_ok : Bool) : BotState :=
  let db1 := s.db.add_warning user guild moderator reason timestamp
  let total := db1.get_warnings_count user guild
  let s1 := { s with db := db1, log := "warned" :: s.log }
  let s2 := if dm_ok then { s1 with log := "modlog_warned" :: "dm_warned" :: s1.log }
            else s1
  if (PUNISHMENTS total).isSome then s2.apply_punishment user guild total else s2

/-- Embeds `ModeratingCog.cmd_delwarn`: if the pair has no warning, report and
return (no deletion, `false`); else delete the row with the highest id,
announce, recompute the count, call `apply_punishment` with the new count
and then `adjust_punishment_after_change`. -/
def cmd_delwarn (s : BotState) (user guild : Nat) : BotState × Bool :=
  match s.db.get_one_user_warning user guild with
  | none => ({ s with log := "no_warnings" :: s.log }, false)
  | some wid =>
    let s1 := { s with db := s.db.delete_last_warning wid
                       log := "modlog_delwarn" :: "removed_warning" :: s.log }
    let cnt := s1.db.get_warnings_count user guild
    let s2 := s1.apply_punishment user guild cnt
    (s2.adjust_punishment_after_change user guild cnt, true)

/-- Embeds `ModeratingCog.cmd_clearwarns`: delete all Warning rows for the pair,
announce, clear any timeout, remove the "Muted" role if held, and unban
(NotFound tolerated). The punishments table and the timers are untouched. -/
def cmd_clearwarns (s : BotState) (user guild : Nat) : BotState :=
  let s1 := { s with db := s.db.delete_all_user_warnings user guild
                     log := "modlog_cleared" :: "cleared" :: s.log }
  let s2 := { s1 with timedOut := removePair s1.timedOut (user, guild) }
  let s3 := if guild ∈ s2.mutedRole ∧ (user, guild) ∈ s2.muted then
              { s2 with muted := removePair s2.muted (user, guild)
                        log := "unmuted" :: s2.log }
            else s2
  { s3 with banned := removePair s3.banned (user, guild) }

/-- Remaining delay computed by `cog_load`: `(ends_at - now).total_seconds()`
clamped at 0 (`if delay <= 0: delay = 0`). `Int.toNat` is exactly that clamp. -/
def clampDelay (ends_at now : Int) : Nat :=
  (ends_at - now).toNat

/-- The loop body of `cog_load`: one `_delayed_unpunish` task per row
returned by `get_all_active_punishments` (all of which have a non-null
`ends_at`). -/
def scheduleRows (now : Int) : List PunishmentRow → List Timer
  | [] => []
  | p :: ps =>
    match p.ends_at with
    | some e => ⟨p.user_id, p.guild_id, p.action, clampDelay e now, .dbTask⟩ :: scheduleRows now ps
    | none => scheduleRows now ps

/-- Embeds `ModeratingCog.cog_load`: startup recovery — read the rows with non-null
expiry and create a `_delayed_unpunish` task for each with the clamped delay. -/
def cog_load (s : BotState) (now : Int) : BotState :=
  { s with timers := s.timers ++ scheduleRows now s.db.get_all_active_punishments }

/-- The body of `ModeratingCog._delayed_unpunish` after the sleep: resolve
guild and member (returning unchanged — row kept — if either fails), reverse
the action (mute: remove role if the role exists and is held; ban: unban,
NotFound tolerated), then `delete_punishment`. -/
def delayed_unpunish (s : BotState) (user_id guild_id : Nat) (action : String) : BotState :=
  if guild_id ∈ s.guilds then
    if (user_id, guild_id) ∈ s.members then
      let s1 :=
        if action = "mute" then
          if guild_id ∈ s.mutedRole ∧ (user_id, guild_id) ∈ s.muted then
            { s with muted := removePair s.muted (user_id, guild_id)
                     log := "auto_unmuted" :: s.log }
          else s
        else if action = "ban" then
          if (user_id, guild_id) ∈ s.banned then
            { s with banned := removePair s.banned (user_id, guild_id)
                     log := "auto_unbanned" :: s.log }
          else s
        else s
      { s1 with db := s1.db.delete_punishment user_id guild_id action }
    else s
  else s

/-- The body of an `unmute_later` closure after the sleep: `remove_roles`
on the captured member (fails without effect if the member is gone), plus an
announcement. No DB access. -/
def unmute_later (s : BotState) (user guild : Nat) : BotState :=
  if (user, guild) ∈ s.members then
    { s with muted := removePair s.muted (user, guild)
             log := "unmuted_later" :: s.log }
  else s

/-- The body of an `unban_later` closure after the sleep: `guild.unban`
(raises NotFound, uncaught, if not banned — no effect). No DB access. -/
def unban_later (s : BotState) (user guild : Nat) : BotState :=
  if (user, guild) ∈ s.banned then
    { s with banned := removePair s.banned (user, guild)
             log := "unbanned_later" :: s.log }
  else s

/-- Fire the i-th pending timer: remove it from the set and run the task
body that corresponds to its kind and action. -/
def fireTimer (s : BotState) (i : Nat) : BotState :=
  match s.timers[i]? with
  | none => s
  | some t =>
    let s0 := { s with timers := s.timers.take i ++ s.timers.drop (i + 1) }
    match t.kind with
    | .dbTask => s0.delayed_unpunish t.user_id t.guild_id t.action
    | .inlineTask =>
      if t.action = "mute" then s0.unmute_later t.user_id t.guild_id
      else if t.action = "ban" then s0.unban_later t.user_id t.guild_id
      else s0

/-- Embeds `ModeratingCog.cmd_mute`: external timeout suppression. No DB access. -/
def cmd_mute (s : BotState) (user guild : Nat) : BotState :=
  { s with timedOut := insertPair s.timedOut (user, guild)
           log := "cmd_muted" :: s.log }

/-- Embeds `ModeratingCog.cmd_unmute`: `timeout(None)`. No DB access. -/
def cmd_unmute (s : BotState) (user guild : Nat) : BotState :=
  { s with timedOut := removePair s.timedOut (user, guild)
           log := "cmd_unmuted" :: s.log }

/-- Embeds `ModeratingCog.cmd_ban`: direct ban. No DB access. -/
def cmd_ban (s : BotState) (user guild : Nat) : BotState :=
  { s with banned := insertPair s.banned (user, guild)
           log := "cmd_banned" :: s.log }

/-- Embeds `ModeratingCog.cmd_unban` (resolved to a user id): lift the ban if the
ban list has the user. No DB access. -/
def cmd_unban (s : BotState) (user guild : Nat) : BotState :=
  if (user, guild) ∈ s.banned then
    { s with banned := removePair s.banned (user, guild)
             log := "cmd_unbanned" :: s.log }
  else { s with log := "no_ban_found" :: s.log }

/-- Embeds `ModeratingCog.cmd_kick`: remove the member from the guild. No DB access. -/
def cmd_kick (s : BotState) (user guild : Nat) : BotState :=
  { s with members := removePair s.members (user, guild)
           log := "kicked" :: s.log }

end BotState

/-- Number of live timers whose key is (user, guild, action). -/
def timersFor (s : BotState) (user guild : Nat) (action : String) : Nat :=
  (s.timers.filter
    (fun t => decide (t.user_id = user ∧ t.guild_id = guild ∧ t.action = action))).length

/-- The scheduler invariant of the spec: every Punishment row with a non-null
expiry has exactly one live timer for its key. -/
def schedInvB (s : BotState) : Bool :=
  s.db.punishments.all
    (fun p => p.ends_at.isNone || timersFor s p.user_id p.guild_id p.action = 1)

/-- Every state reachable from `s0` by the modelled operations of the
program: the warn/delwarn/clearwarns commands, the manual moderation
commands, startup recovery, and timer firing. -/
inductive Reach (s0 : BotState) : BotState → Prop where
  | refl : Reach s0 s0
  | warn (s : BotState) (u g m : Nat) (r t : String) (dm : Bool) :
      Reach s0 s → Reach s0 (s.cmd_warn u g m r t dm)
  | delwarn (s : BotState) (u g : Nat) :
      Reach s0 s → Reach s0 (s.cmd_delwarn u g).1
  | clearwarns (s : BotState) (u g : Nat) :
      Reach s0 s → Reach s0 (s.cmd_clearwarns u g)
  | load (s : BotState) (now : Int) :
      Reach s0 s → Reach s0 (s.cog_load now)
  | fire (s : BotState) (i : Nat) :
      Reach s0 s → Reach s0 (s.fireTimer i)
  | mute (s : BotState) (u g : Nat) : Reach s0 s → Reach s0 (s.cmd_mute u g)
  | unmute (s : BotState) (u g : Nat) : Reach s0 s → Reach s0 (s.cmd_unmute u g)
  | ban (s : BotState) (u g : Nat) : Reach s0 s → Reach s0 (s.cmd_ban u g)
  | unban (s : BotState) (u g : Nat) : Reach s0 s → Reach s0 (s.cmd_unban u g)
  | kick (s : BotState) (u g : Nat) : Reach s0 s → Reach s0 (s.cmd_kick u g)

section Helpers

/-- Lemma: `apply_punishment` never touches the database: every branch only updates
roles, bans, timeouts, timers and the transcript. -/
theorem apply_punishment_db (s : BotState) (u g c : Nat) :
    (s.apply_punishment u g c).db = s.db := by
  unfold BotState.apply_punishment
  split
  · rfl
  next a d _ =>
    by_cases hm : a = "mute" <;> by_cases hb : a = "ban" <;>
      cases d <;> simp only [hm, hb, if_true, if_false, reduceIte] <;>
      split_ifs <;> rfl

/-- Lemma: `adjust_punishment_after_change` never touches the database. -/
theorem adjust_db (s : BotState) (u g c : Nat) :
    (s.adjust_punishment_after_change u g c).db = s.db := by
  unfold BotState.adjust_punishment_after_change
  split_ifs <;> rfl

/-- The database after `cmd_warn` is exactly the database after the
`add_warning` insert, whatever the DM outcome and whatever punishment is
applied afterwards. -/
theorem cmd_warn_db (s : BotState) (u g m : Nat) (r t : String) (dm : Bool) :
    (s.cmd_warn u g m r t dm).db = s.db.add_warning u g m r t := by
  unfold BotState.cmd_warn
  cases dm <;> simp only [reduceIte] <;> split <;> simp [apply_punishment_db]

end Helpers

/-- For mute thresholds, `apply_punishment` appends exactly one inline
`unmute_later` timer carrying the policy duration. -/
theorem apply_mute_timers (s : BotState) (u g c d : Nat)
    (h : PUNISHMENTS c = some ("mute", some d)) :
    (s.apply_punishment u g c).timers
      = s.timers ++ [⟨u, g, "mute", d, .inlineTask⟩] := by
  unfold BotState.apply_punishment
  rw [h]
  simp only [reduceIte]
  split_ifs <;> rfl

/-- C1: `apply_punishment` performs no database write at any warning count —
in particular, reaching count 3 only spawns an in-memory `unmute_later`
timer for one hour, and no Punishment row is persisted for the reversal
machinery (`cog_load` / `_delayed_unpunish`) to find. -/
theorem C1_apply_punishment_persists_no_row (s : BotState) (u g c : Nat) :
    (s.apply_punishment u g c).db = s.db ∧
    (s.apply_punishment u g 3).timers
      = s.timers ++ [⟨u, g, "mute", 3600, .inlineTask⟩] :=
  ⟨apply_punishment_db s u g c, apply_mute_timers s u g 3 3600 rfl⟩

/-- C7: the punishment policy is the exact-match table
3 ↦ (mute, 1h), 4 ↦ (mute, 12h), 5 ↦ (mute, 24h), 6 ↦ (mute, 168h),
7 ↦ (mute, 672h), 8 ↦ (ban, permanent), and every count outside 3..8
(including 9, 10, ...) maps to no action. -/
theorem C7_policy_exact_table :
    PUNISHMENTS 3 = some ("mute", some 3600) ∧
    PUNISHMENTS 4 = some ("mute", some 43200) ∧
    PUNISHMENTS 5 = some ("mute", some 86400) ∧
    PUNISHMENTS 6 = some ("mute", some 604800) ∧
    PUNISHMENTS 7 = some ("mute", some 2419200) ∧
    PUNISHMENTS 8 = some ("ban", none) ∧
    (∀ c : Nat, c < 3 ∨ 8 < c → PUNISHMENTS c = none) := by
  refine ⟨rfl, rfl, rfl, rfl, rfl, rfl, ?_⟩
  intro c hc
  unfold PUNISHMENTS
  rw [if_neg (by omega), if_neg (by omega), if_neg (by omega),
      if_neg (by omega), if_neg (by omega), if_neg (by omega)]

/-- Witness for C7 at the concrete out-of-table counts 9 and 2. -/
theorem C7_policy_exact_table_witness :
    ((9 : Nat) < 3 ∨ 8 < 9) ∧ PUNISHMENTS 9 = none ∧ PUNISHMENTS 2 = none :=
  ⟨Or.inr (by decide),
   C7_policy_exact_table.2.2.2.2.2.2 9 (Or.inr (by decide)),
   C7_policy_exact_table.2.2.2.2.2.2 2 (Or.inl (by decide))⟩

/-- C8: `cmd_warn` appends exactly one Warning row for the pair, the
recomputed count is the previous count plus one, and the database outcome is
identical whether or not the DM/log notification succeeds. -/
theorem C8_warn_appends_exactly_one (s : BotState) (u g m : Nat)
    (r t : String) (dm : Bool) :
    (s.cmd_warn u g m r t dm).db.warnings
      = s.db.warnings ++ [⟨s.db.nextId, u, g, m, r, t⟩] ∧
    (s.cmd_warn u g m r t dm).db.get_warnings_count u g
      = s.db.get_warnings_count u g + 1 ∧
    (s.cmd_warn u g m r t true).db = (s.cmd_warn u g m r t false).db := by
  refine ⟨?_, ?_, ?_⟩
  · rw [cmd_warn_db]; rfl
  · rw [cmd_warn_db]
    unfold DBState.add_warning DBState.get_warnings_count
    simp [List.filter_append, DBState.forPair]
  · rw [cmd_warn_db, cmd_warn_db]

/-- Removing a pair from a role/ban set removes every occurrence of it. -/
theorem removePair_not_mem (l : List (Nat × Nat)) (p : Nat × Nat) :
    p ∉ removePair l p := by
  simp [removePair, List.mem_filter]

/-- Every row of the list whose expiry is non-null contributes its timer to
`scheduleRows`. -/
theorem mem_scheduleRows (now : Int) (p : PunishmentRow) (e : Int)
    (he : p.ends_at = some e) (l : List PunishmentRow) (hp : p ∈ l) :
    (⟨p.user_id, p.guild_id, p.action, BotState.clampDelay e now, .dbTask⟩ : Timer)
      ∈ BotState.scheduleRows now l := by
  induction l with
  | nil => cases hp
  | cons q l ih =>
    unfold BotState.scheduleRows
    rcases List.mem_cons.mp hp with h1 | h2
    · subst h1
      rw [he]
      exact List.mem_cons_self _ _
    · cases hq : q.ends_at with
      | none => exact ih h2
      | some e2 => exact List.mem_cons_of_mem _ (ih h2)

/-- C5: startup recovery schedules, for every Punishment row with a non-null
expiry, a `_delayed_unpunish` timer for its key whose delay is
`max(0, ends_at - now)`; in particular a past expiry clamps the delay to 0
(fires immediately) rather than never. -/
theorem C5_startup_recovery_schedules (s : BotState) (now : Int)
    (p : PunishmentRow) (e : Int)
    (hp : p ∈ s.db.punishments) (he : p.ends_at = some e) :
    (⟨p.user_id, p.guild_id, p.action, BotState.clampDelay e now, .dbTask⟩ : Timer)
      ∈ (s.cog_load now).timers ∧
    (e ≤ now → BotState.clampDelay e now = 0) := by
  constructor
  · unfold BotState.cog_load
    refine List.mem_append_right _ ?_
    refine mem_scheduleRows now p e he _ ?_
    unfold DBState.get_all_active_punishments
    exact List.mem_filter.mpr ⟨hp, by simp [he]⟩
  · intro hle
    unfold BotState.clampDelay
    omega

/-- A concrete state whose punishments table holds one mute row for
(user 1, guild 2) that expired at time 50. -/
def sPast : BotState :=
  ⟨⟨[], [⟨1, 2, "mute", some 50⟩], 0⟩, [], [], [], [], [], [], [], []⟩

/-- Witness for C5: recovering `sPast` at time 100 schedules the reversal
with delay clamped to 0. -/
theorem C5_startup_recovery_schedules_witness :
    (⟨1, 2, "mute", BotState.clampDelay 50 100, .dbTask⟩ : Timer)
      ∈ (sPast.cog_load 100).timers ∧ BotState.clampDelay 50 100 = 0 := by
  have h := C5_startup_recovery_schedules sPast 100 ⟨1, 2, "mute", some 50⟩ 50
    (by decide) rfl
  exact ⟨h.1, h.2 (by decide)⟩

/-- When guild and member both resolve, the `_delayed_unpunish` body ends by
deleting the row, whatever reversal branch ran. -/
theorem delayed_unpunish_db_resolvable (s : BotState) (u g : Nat) (a : String)
    (hg : g ∈ s.guilds) (hm : (u, g) ∈ s.members) :
    (s.delayed_unpunish u g a).db = s.db.delete_punishment u g a := by
  unfold BotState.delayed_unpunish
  rw [if_pos hg, if_pos hm]
  split_ifs <;> rfl

/-- C2 (amended): a scheduled reversal deletes its Punishment row — so it no
longer appears among the rows with an expiry — exactly when the guild and the
member are still resolvable at fire time; if either is not, the task returns
early, skipping the reversal AND the row deletion, and the row stays. -/
theorem C2_fire_deletes_row_iff_resolvable (s : BotState) (u g : Nat) (a : String) :
    (g ∈ s.guilds → (u, g) ∈ s.members →
      ∀ p ∈ (s.delayed_unpunish u g a).db.get_all_active_punishments,
        ¬(p.user_id = u ∧ p.guild_id = g ∧ p.action = a)) ∧
    (g ∉ s.guilds → s.delayed_unpunish u g a = s) ∧
    (g ∈ s.guilds → (u, g) ∉ s.members → s.delayed_unpunish u g a = s) := by
  refine ⟨?_, ?_, ?_⟩
  · intro hg hm p hp
    rw [delayed_unpunish_db_resolvable s u g a hg hm] at hp
    unfold DBState.get_all_active_punishments DBState.delete_punishment at hp
    have h2 := (List.mem_filter.mp hp).1
    have h3 := (List.mem_filter.mp h2).2
    simp only [Bool.not_eq_true', decide_eq_false_iff_not] at h3
    exact h3
  · intro hg
    unfold BotState.delayed_unpunish
    rw [if_neg hg]
  · intro hg hm
    unfold BotState.delayed_unpunish
    rw [if_pos hg, if_neg hm]

/-- A state holding one expired mute row for (user 1, guild 2) whose guild is
no longer resolvable. -/
def sGone : BotState :=
  ⟨⟨[], [⟨1, 2, "mute", some 0⟩], 0⟩, [], [], [], [], [], [], [], []⟩

/-- Counterexample to C2 as stated: firing the reversal for the row of
`sGone` (guild unresolvable) leaves the row in `get_all_active_punishments`,
so the fire did NOT delete the Punishment row. -/
theorem C2_counterexample :
    (sGone.delayed_unpunish 1 2 "mute").db.get_all_active_punishments
      = [⟨1, 2, "mute", some 0⟩] := by decide

/-- Witness for C2 (amended) at a fully resolvable concrete state. -/
theorem C2_fire_deletes_row_iff_resolvable_witness :
    ((2 : Nat) ∈ ([2] : List Nat)) ∧
    ∀ p ∈ ((⟨⟨[], [⟨1, 2, "mute", some 0⟩], 0⟩, [2], [(1, 2)], [], [], [], [], [], []⟩ :
        BotState).delayed_unpunish 1 2 "mute").db.get_all_active_punishments,
      ¬(p.user_id = 1 ∧ p.guild_id = 2 ∧ p.action = "mute") :=
  ⟨by decide,
   (C2_fire_deletes_row_iff_resolvable
     ⟨⟨[], [⟨1, 2, "mute", some 0⟩], 0⟩, [2], [(1, 2)], [], [], [], [], [], []⟩
     1 2 "mute").1 (by decide) (by decide)⟩

/-- After deleting every row matching a predicate, a count filtered by that
same predicate is zero. -/
theorem filter_after_delete (l : List WarningRow) (f : WarningRow → Bool) :
    (l.filter (fun w => !(f w))).filter f = [] := by
  induction l with
  | nil => rfl
  | cons w l ih =>
    by_cases h : f w = true <;> simp [h, ih]

/-- C4 (amended): `cmd_clearwarns` empties the warnings of the pair (so a
following count is 0), clears any timeout, removes the "Muted" role when the
guild has one, and lifts the ban tolerating a missing entry — but it leaves
the punishments table AND the pending timers completely untouched: no row
removal and no scheduler cancellation happens. -/
theorem C4_clearwarns_reverses_without_cleanup (s : BotState) (u g : Nat) :
    (s.cmd_clearwarns u g).db.get_warnings_count u g = 0 ∧
    (s.cmd_clearwarns u g).db.punishments = s.db.punishments ∧
    (s.cmd_clearwarns u g).timers = s.timers ∧
    (u, g) ∉ (s.cmd_clearwarns u g).banned ∧
    (u, g) ∉ (s.cmd_clearwarns u g).timedOut ∧
    (g ∈ s.mutedRole → (u, g) ∉ (s.cmd_clearwarns u g).muted) := by
  unfold BotState.cmd_clearwarns
  dsimp only
  refine ⟨?_, ?_, ?_, ?_, ?_, ?_⟩
  · split_ifs <;>
      simp [DBState.get_warnings_count, DBState.delete_all_user_warnings,
            filter_after_delete]
  · split_ifs <;> rfl
  · split_ifs <;> rfl
  · split_ifs <;> exact removePair_not_mem _ _
  · split_ifs <;> exact removePair_not_mem _ _
  · intro hrole
    split_ifs with h
    · exact removePair_not_mem _ _
    · intro hmem
      exact h ⟨hrole, hmem⟩

/-- Witness for C4 (amended) at a concrete muted, banned, timed-out state
with a pending punishment row and timer. -/
theorem C4_clearwarns_reverses_without_cleanup_witness :
    ((⟨⟨[⟨0, 1, 2, 9, "r", "t"⟩], [⟨1, 2, "mute", some 5⟩], 1⟩, [2], [(1, 2)],
        [2], [(1, 2)], [(1, 2)], [(1, 2)],
        [⟨1, 2, "mute", 60, .inlineTask⟩], []⟩ :
      BotState).cmd_clearwarns 1 2).db.get_warnings_count 1 2 = 0 ∧
    ((2 : Nat) ∈ ([2] : List Nat) →
      (1, 2) ∉ ((⟨⟨[⟨0, 1, 2, 9, "r", "t"⟩], [⟨1, 2, "mute", some 5⟩], 1⟩, [2],
          [(1, 2)], [2], [(1, 2)], [(1, 2)], [(1, 2)],
          [⟨1, 2, "mute", 60, .inlineTask⟩], []⟩ :
        BotState).cmd_clearwarns 1 2).muted) := by
  have h := C4_clearwarns_reverses_without_cleanup
    ⟨⟨[⟨0, 1, 2, 9, "r", "t"⟩], [⟨1, 2, "mute", some 5⟩], 1⟩, [2], [(1, 2)],
      [2], [(1, 2)], [(1, 2)], [(1, 2)], [⟨1, 2, "mute", 60, .inlineTask⟩], []⟩
    1 2
  exact ⟨h.1, fun _ => h.2.2.2.2.2 (by decide)⟩

/-- A state with an active punishment row and its pending timer, plus a
warning for the pair. -/
def sActive : BotState :=
  ⟨⟨[⟨0, 1, 2, 9, "r", "t"⟩], [⟨1, 2, "mute", some 5⟩], 1⟩, [2], [(1, 2)],
    [2], [(1, 2)], [], [], [⟨1, 2, "mute", 5, .dbTask⟩], []⟩

/-- Counterexample to C4 as stated: after `cmd_clearwarns` the punishment
row is still in the table and the scheduler timer is still pending — nothing
was removed from the table and nothing was cancelled. -/
theorem C4_counterexample :
    (sActive.cmd_clearwarns 1 2).db.punishments = [⟨1, 2, "mute", some 5⟩] ∧
    (sActive.cmd_clearwarns 1 2).timers = [⟨1, 2, "mute", 5, .dbTask⟩] := by
  decide


/-- If `maxId` returns an id, some row of the list carries it. -/
theorem maxId_mem (l : List WarningRow) (m : Nat) (h : DBState.maxId l = some m) :
    ∃ w ∈ l, w.id = m := by
  induction l generalizing m with
  | nil => cases h
  | cons w l ih =>
    unfold DBState.maxId at h
    cases hm : DBState.maxId l with
    | none =>
      rw [hm] at h
      exact ⟨w, List.mem_cons_self _ _, Option.some_injective _ h⟩
    | some m2 =>
      rw [hm] at h
      have hmax := Option.some_injective _ h
      rcases Nat.le_total w.id m2 with hle | hle
      · obtain ⟨w2, hw2, hid⟩ := ih m2 hm
        refine ⟨w2, List.mem_cons_of_mem _ hw2, ?_⟩
        omega
      · exact ⟨w, List.mem_cons_self _ _, by omega⟩

/-- Lemma: `maxId` dominates every id of the list. -/
theorem maxId_le (l : List WarningRow) (m : Nat) (h : DBState.maxId l = some m)
    (w : WarningRow) (hw : w ∈ l) : w.id ≤ m := by
  induction l generalizing m with
  | nil => cases hw
  | cons v l ih =>
    unfold DBState.maxId at h
    rcases List.mem_cons.mp hw with h1 | h2
    · subst h1
      cases hm : DBState.maxId l with
      | none => rw [hm] at h; have := Option.some_injective _ h; omega
      | some m2 => rw [hm] at h; have := Option.some_injective _ h; omega
    · cases hm : DBState.maxId l with
      | none =>
        exfalso
        cases l with
        | nil => cases h2
        | cons a l2 =>
          unfold DBState.maxId at hm
          cases hq : DBState.maxId l2 <;> rw [hq] at hm <;> simp at hm
      | some m2 =>
        rw [hm] at h
        have hv := Option.some_injective _ h
        have := ih m2 hm h2
        omega

/-- C9: `cmd_delwarn` with no warning for the pair reports `false` and leaves
the ledger unchanged; otherwise it reports `true` and deletes exactly the row
whose id is the highest (most recent) id of the pair; and
`adjust_punishment_after_change` changes nothing at counts 3 and above while
below 3 it removes an active mute. -/
theorem C9_delwarn_removes_latest (s : BotState) (u g : Nat) :
    (s.db.get_one_user_warning u g = none →
      (s.cmd_delwarn u g).2 = false ∧ ((s.cmd_delwarn u g).1).db = s.db) ∧
    (∀ wid : Nat, s.db.get_one_user_warning u g = some wid →
      (s.cmd_delwarn u g).2 = true ∧
      ((s.cmd_delwarn u g).1).db.warnings
        = s.db.warnings.filter (fun w => !(decide (w.id = wid))) ∧
      (∃ w ∈ s.db.warnings, DBState.forPair u g w = true ∧ w.id = wid) ∧
      (∀ w ∈ s.db.warnings, DBState.forPair u g w = true → w.id ≤ wid)) ∧
    (∀ c : Nat, 3 ≤ c → s.adjust_punishment_after_change u g c = s) ∧
    (∀ c : Nat, c < 3 → g ∈ s.mutedRole → (u, g) ∈ s.muted →
      (u, g) ∉ (s.adjust_punishment_after_change u g c).muted) := by
  refine ⟨?_, ?_, ?_, ?_⟩
  · intro h
    unfold BotState.cmd_delwarn
    rw [h]
    exact ⟨rfl, rfl⟩
  · intro wid h
    refine ⟨?_, ?_, ?_, ?_⟩
    · unfold BotState.cmd_delwarn
      rw [h]
    · unfold BotState.cmd_delwarn
      rw [h]
      dsimp only
      rw [adjust_db, apply_punishment_db]
      rfl
    · obtain ⟨w, hw, hid⟩ := maxId_mem _ wid h
      have hw2 := List.mem_filter.mp hw
      exact ⟨w, hw2.1, hw2.2, hid⟩
    · intro w hw hp
      exact maxId_le _ wid h w (List.mem_filter.mpr ⟨hw, hp⟩)
  · intro c hc
    unfold BotState.adjust_punishment_after_change
    rw [if_neg (by omega)]
  · intro c hc h1 h2
    unfold BotState.adjust_punishment_after_change
    rw [if_pos hc]
    dsimp only
    rw [if_pos ⟨h1, h2⟩]
    exact removePair_not_mem _ _

/-- A ledger with two warnings (ids 0 and 1) for (user 1, guild 2). -/
def sTwoWarns : BotState :=
  ⟨⟨[⟨0, 1, 2, 9, "a", "t"⟩, ⟨1, 1, 2, 9, "b", "t"⟩], [], 2⟩,
    [2], [(1, 2)], [], [], [], [], [], []⟩

/-- Witness for C9: deleting the latest warning of `sTwoWarns` removes the
row with the highest id (1) and reports success. -/
theorem C9_delwarn_removes_latest_witness :
    (sTwoWarns.cmd_delwarn 1 2).2 = true ∧
    ((sTwoWarns.cmd_delwarn 1 2).1).db.warnings
      = sTwoWarns.db.warnings.filter (fun w => !(decide (w.id = 1))) := by
  have h := (C9_delwarn_removes_latest sTwoWarns 1 2).2.1 1 (by decide)
  exact ⟨h.1, h.2.1⟩

/-- C6 (amended): re-applying the ban (count 8) while already banned is a
guarded no-op that only emits the notice; but re-applying the mute (count 3)
is NOT idempotent on the scheduler — each application appends one more
`unmute_later` reversal timer, so applying twice leaves two pending
reversals where applying once leaves one. -/
theorem C6_reapply_ban_guarded_mute_not (s : BotState) (u g : Nat) :
    ((u, g) ∈ s.banned →
      s.apply_punishment u g 8 = { s with log := "already_banned" :: s.log }) ∧
    (s.apply_punishment u g 3).timers
      = s.timers ++ [⟨u, g, "mute", 3600, .inlineTask⟩] ∧
    ((s.apply_punishment u g 3).apply_punishment u g 3).timers
      = s.timers ++ [⟨u, g, "mute", 3600, .inlineTask⟩,
                     ⟨u, g, "mute", 3600, .inlineTask⟩] := by
  refine ⟨?_, apply_mute_timers s u g 3 3600 rfl, ?_⟩
  · intro hb
    have h8 : PUNISHMENTS 8 = some ("ban", none) := rfl
    unfold BotState.apply_punishment
    rw [h8]
    dsimp only
    rw [if_neg (by decide), if_pos rfl, if_pos hb]
  · rw [apply_mute_timers _ u g 3 3600 rfl, apply_mute_timers s u g 3 3600 rfl]
    simp

/-- A state where (user 1, guild 2) is already banned. -/
def sBanned : BotState :=
  ⟨⟨[], [], 0⟩, [2], [(1, 2)], [], [], [], [(1, 2)], [], []⟩

/-- Witness for C6 (amended) at the concrete already-banned state. -/
theorem C6_reapply_ban_guarded_mute_not_witness :
    sBanned.apply_punishment 1 2 8
      = { sBanned with log := "already_banned" :: sBanned.log } ∧
    (sBanned.apply_punishment 1 2 3).timers
      = sBanned.timers ++ [⟨1, 2, "mute", 3600, .inlineTask⟩] := by
  have h := C6_reapply_ban_guarded_mute_not sBanned 1 2
  exact ⟨h.1 (by decide), h.2.1⟩

/-- An empty base state. -/
def sBase : BotState := ⟨⟨[], [], 0⟩, [2], [(1, 2)], [], [], [], [], [], []⟩

/-- Counterexample to C6 as stated: applying `apply_punishment` twice at
count 3 does not leave the same state as applying it once (the second
application appends a second scheduled reversal). -/
theorem C6_counterexample :
    (sBase.apply_punishment 1 2 3).apply_punishment 1 2 3
      ≠ sBase.apply_punishment 1 2 3 := by decide

/-- Lemma: `scheduleRows` creates timers in key-preserving one-to-one correspondence
with its input rows when every row has a non-null expiry: counting timers by
key equals counting rows by key. -/
theorem scheduleRows_keyCount (now : Int) (u g : Nat) (a : String)
    (l : List PunishmentRow) (hl : ∀ q ∈ l, q.ends_at.isSome = true) :
    ((BotState.scheduleRows now l).filter
        (fun t => decide (t.user_id = u ∧ t.guild_id = g ∧ t.action = a))).length
      = (l.filter
        (fun q => decide (q.user_id = u ∧ q.guild_id = g ∧ q.action = a))).length := by
  induction l with
  | nil => rfl
  | cons q l ih =>
    have hq := hl q (List.mem_cons_self _ _)
    have ihl := ih (fun q2 hq2 => hl q2 (List.mem_cons_of_mem _ hq2))
    cases he : q.ends_at with
    | none => rw [he] at hq; cases hq
    | some e =>
      unfold BotState.scheduleRows
      rw [he]
      dsimp only
      rw [List.filter_cons, List.filter_cons]
      by_cases hkey : q.user_id = u ∧ q.guild_id = g ∧ q.action = a
      · simpa [hkey] using ihl
      · simpa [hkey] using ihl

/-- C3 (amended): startup recovery from a state with no pending timers
establishes the scheduler invariant — every Punishment row with a non-null
expiry gets exactly one timer for its key — provided the table has no two
expiring rows with the same key. (The invariant is NOT preserved by a fire
whose target guild or member is unresolvable: see the counterexample.) -/
theorem C3_recovery_establishes_invariant (s : BotState) (now : Int)
    (ht : s.timers = [])
    (hk : ∀ p ∈ s.db.get_all_active_punishments,
      (s.db.get_all_active_punishments.filter
        (fun q => decide (q.user_id = p.user_id ∧ q.guild_id = p.guild_id ∧
          q.action = p.action))).length = 1) :
    schedInvB (s.cog_load now) = true := by
  unfold schedInvB
  rw [List.all_eq_true]
  intro p hp
  by_cases hends : p.ends_at.isSome = true
  · have hmem : p ∈ s.db.get_all_active_punishments :=
      List.mem_filter.mpr ⟨hp, hends⟩
    have h2 : timersFor (s.cog_load now) p.user_id p.guild_id p.action = 1 := by
      have hall : ∀ q ∈ s.db.get_all_active_punishments, q.ends_at.isSome = true := by
        intro q hq
        unfold DBState.get_all_active_punishments at hq
        exact (List.mem_filter.mp hq).2
      unfold timersFor BotState.cog_load
      dsimp only
      rw [ht, List.nil_append,
        scheduleRows_keyCount now p.user_id p.guild_id p.action
          s.db.get_all_active_punishments hall]
      exact hk p hmem
    simp [h2]
  · have : p.ends_at.isNone = true := by
      cases hpe : p.ends_at <;> rw [hpe] at hends <;> simp at hends ⊢
    simp [this]

/-- Witness for C3 (amended): recovering `sGone` (one expiring row, no
timers) establishes the invariant. -/
theorem C3_recovery_establishes_invariant_witness :
    schedInvB (sGone.cog_load 10) = true :=
  C3_recovery_establishes_invariant sGone 10 rfl (by decide)

/-- Counterexample to C3 as stated: the invariant holds right after startup
recovery of `sGone`, but firing the recovered timer — whose guild is no
longer resolvable — consumes the timer while keeping the row, leaving a
non-permanent Punishment row with zero live timers. -/
theorem C3_counterexample :
    schedInvB ((sGone.cog_load 10).fireTimer 0) = false ∧
    (((sGone.cog_load 10).fireTimer 0).db.punishments
      = [⟨1, 2, "mute", some 0⟩]) := by decide

/-- Lemma: `cmd_delwarn` only ever deletes warning rows: the punishments table is
untouched. -/
theorem delwarn_punishments (s : BotState) (u g : Nat) :
    ((s.cmd_delwarn u g).1).db.punishments = s.db.punishments := by
  unfold BotState.cmd_delwarn
  cases h : s.db.get_one_user_warning u g with
  | none => rfl
  | some wid =>
    dsimp only
    rw [adjust_db, apply_punishment_db]
    rfl

/-- Lemma: `cmd_clearwarns` only ever deletes warning rows: the punishments table is
untouched. -/
theorem clearwarns_punishments (s : BotState) (u g : Nat) :
    (s.cmd_clearwarns u g).db.punishments = s.db.punishments := by
  unfold BotState.cmd_clearwarns
  dsimp only
  split_ifs <;> rfl

/-- Firing any timer on an empty punishments table leaves it empty: the only
database effect a fire can have is a `delete_punishment`. -/
theorem fireTimer_punishments_nil (s : BotState) (i : Nat)
    (h : s.db.punishments = []) : (s.fireTimer i).db.punishments = [] := by
  unfold BotState.fireTimer
  cases ht : s.timers[i]? with
  | none => exact h
  | some t =>
    dsimp only
    cases hk : t.kind with
    | dbTask =>
      unfold BotState.delayed_unpunish
      split_ifs <;> simp [DBState.delete_punishment, h]
    | inlineTask =>
      unfold BotState.unmute_later BotState.unban_later
      split_ifs <;> exact h

/-- C10: starting from an empty punishments table, every state reachable by
the operations of the program still has an empty punishments table — no operation
ever inserts a Punishment row (the database layer has no insert for
punishments and `apply_punishment` only spawns in-memory timers) — and so
startup recovery never finds a row to reschedule. -/
theorem C10_punishments_table_stays_empty (s0 s : BotState) (h : Reach s0 s)
    (h0 : s0.db.punishments = []) :
    s.db.punishments = [] ∧ s.db.get_all_active_punishments = [] := by
  have hp : s.db.punishments = [] := by
    induction h with
    | refl => exact h0
    | warn s u g m r t dm _ ih => rw [cmd_warn_db]; exact ih
    | delwarn s u g _ ih => rw [delwarn_punishments]; exact ih
    | clearwarns s u g _ ih => rw [clearwarns_punishments]; exact ih
    | load s now _ ih => exact ih
    | fire s i _ ih => exact fireTimer_punishments_nil s i ih
    | mute s u g _ ih => exact ih
    | unmute s u g _ ih => exact ih
    | ban s u g _ ih => exact ih
    | unban s u g _ ih =>
      unfold BotState.cmd_unban
      split_ifs <;> exact ih
    | kick s u g _ ih => exact ih
  refine ⟨hp, ?_⟩
  unfold DBState.get_all_active_punishments
  rw [hp]
  rfl

/-- Witness for C10: one warn step from the empty-punishments state
`sTwoWarns` keeps the punishments table empty. -/
theorem C10_punishments_table_stays_empty_witness :
    (sTwoWarns.cmd_warn 1 2 9 "r" "t" true).db.punishments = [] ∧
    (sTwoWarns.cmd_warn 1 2 9 "r" "t" true).db.get_all_active_punishments = [] :=
  C10_punishments_table_stays_empty sTwoWarns _
    (Reach.warn sTwoWarns 1 2 9 "r" "t" true Reach.refl) rfl
